import Mathlib

/-!
Shallow embedding of `src/bin/lib/getOptions.js` from the chromatic-cli
repository: the option normalizer and resolver that computes a single run
configuration from raw CLI flags, environment defaults and the project
manifest's `scripts` table.

JavaScript dynamic values are modelled with small inductive types:
a raw flag value is absent, a string, or a non-empty ordered sequence of
strings (a repeated flag as delivered by the argv parser); a normalized
"empty string means true" flag is absent, a boolean, or a string.
JS truthiness is made explicit by `truthy*` functions.  String algorithms
(`split`, `endsWith`, `startsWith`, tokenizing) are implemented
structurally over `List Char` so that everything evaluates by `decide`.
-/

/-- A raw flag value as delivered by the argv parser: absent, a scalar
string (the empty string is the presence-without-value sentinel), or the
ordered values of a repeated flag (at least one occurrence). -/
inductive FlagVal where
  | undef
  | str (s : String)
  | arr (x : String) (xs : List String)
deriving DecidableEq, Repr

/-- A normalized flag value: JS `undefined`, a boolean, or a string.
Produced by the `=== '' ? true : v` normalization in the source. -/
inductive StrB where
  | undef
  | bool (b : Bool)
  | str (s : String)
deriving DecidableEq, Repr

/-- The `https` value flowing through the resolver: either the raw boolean
flag value (also the falsy short-circuit of `options.https && {...}`),
or the `{cert, key, ca}` object. -/
inductive HVal where
  | bool (b : Bool)
  | obj (cert key ca : Option String)
deriving DecidableEq, Repr

/-- The nine named error kinds thrown by `getOptions`, with the context
each carries to its message renderer. -/
inductive ErrKind where
  | missingProjectToken
  | invalidPatchBuild
  | duplicatePatchBuild
  | invalidSingularOptions (labels : List String)
  | invalidExitOnceUploaded
  | missingBuildScriptName (name : String)
  | missingScriptName (name : String)
  | missingStorybookPort
  | unknownStorybookPort (scriptName : String)
deriving DecidableEq, Repr

/-- JS truthiness of an optional string (`undefined` and `''` are falsy). -/
def truthyS : Option String → Bool
  | none => false
  | some s => s != ""

/-- JS truthiness of a raw flag value: any array is truthy. -/
def truthyF : FlagVal → Bool
  | .undef => false
  | .str s => s != ""
  | .arr _ _ => true

/-- JS truthiness of a normalized value. -/
def truthyB : StrB → Bool
  | .undef => false
  | .bool b => b
  | .str s => s != ""

/-- JS truthiness of an https value (any object is truthy). -/
def truthyH : HVal → Bool
  | .bool b => b
  | .obj _ _ _ => true

/-- `takeLast` from the source: `Array.isArray(input) ? input[input.length - 1] : input`. -/
def takeLast : FlagVal → Option String
  | .undef => none
  | .str s => some s
  | .arr x xs => some (xs.getLastD x)

/-- JS `a || b` on an optional string versus an optional string default. -/
def jsOr (a b : Option String) : Option String :=
  match a with
  | some s => if s = "" then b else some s
  | none => b

/-- The `flags.x === '' ? true : flags.x` normalization. -/
def normET : Option String → StrB
  | none => .undef
  | some s => if s = "" then .bool true else .str s

/-- JS `String.prototype.endsWith` on char lists: `suf` is a suffix of `l`. -/
def isSuffixL (suf l : List Char) : Bool :=
  l.drop (l.length - suf.length) == suf

/-- JS `s.endsWith(t)`. -/
def jsEndsWith (s t : String) : Bool :=
  isSuffixL t.data s.data

/-- JS `s.startsWith(t)`. -/
def jsStartsWith (s t : String) : Bool :=
  t.data.isPrefixOf s.data

/-- JS `s.slice(n)` / `String.drop` on the character list. -/
def jsDrop (s : String) (n : Nat) : String :=
  ⟨s.data.drop n⟩

/-- JS `'a...b...c'.split('...')`: greedy left-to-right split on the
literal three-dot separator. -/
def splitDots : List Char → List (List Char)
  | '.' :: '.' :: '.' :: rest => [] :: splitDots rest
  | c :: rest =>
    match splitDots rest with
    | [] => [[c]]
    | h :: t => (c :: h) :: t
  | [] => [[]]

/-- `String` version of `splitDots`. -/
def jsSplitDots (s : String) : List String :=
  (splitDots s.data).map (fun l => (⟨l⟩ : String))

/-- Split a char list at every separator character (runs of separators
produce empty pieces, removed by the callers' filters). -/
def splitOnPred (p : Char → Bool) : List Char → List (List Char)
  | [] => [[]]
  | c :: cs =>
    if p c then [] :: splitOnPred p cs
    else
      match splitOnPred p cs with
      | [] => [[c]]
      | h :: t => (c :: h) :: t

/-- Node `path.join(home, rest)` for the home-dir expansion call sites:
concatenates with a single `/` separator (no trailing slash in `home`). -/
def pathJoin (a b : String) : String :=
  if jsStartsWith b "/" then a ++ b else a ++ "/" ++ b

/-- Node `path.resolve(s)` relative to the working directory `cwd`. -/
def pathResolve (cwd s : String) : String :=
  if jsStartsWith s "/" then s
  else if s = "" then cwd
  else cwd ++ "/" ++ s

/-- The process-environment constants read by the source (`HOME`, the
working directory, and the `CHROMATIC_*` defaults from `../constants`). -/
structure Env where
  home : String
  cwd : String
  chromaticProjectToken : Option String
  chromaticIndexUrl : Option String
  chromaticTunnelUrl : Option String
  chromaticCreateTunnel : Option String
deriving DecidableEq, Repr

/-- `resolveHomeDir` from the source:
`filepath && filepath.startsWith('~') ? path.join(process.env.HOME, filepath.slice(1)) : filepath`. -/
def resolveHomeDir (env : Env) (filepath : String) : String :=
  if filepath != "" && jsStartsWith filepath "~" then
    pathJoin env.home (jsDrop filepath 1)
  else filepath

/-- `resolveHomeDir` applied to a normalized value (as done to the results
of `getStorybookConfiguration`): a string is expanded, absent/falsy values
pass through, and JS boolean `true` would crash (`true.startsWith` is a
TypeError), modelled as `Except.error`. -/
def resolveHomeDirV (env : Env) : StrB → Except Unit (Option String)
  | .str s => .ok (some (resolveHomeDir env s))
  | .undef => .ok none
  | .bool true => .error ()
  | .bool false => .ok none

/-- JS template-literal rendering of a normalized value (as in
the `localhost:${port}` interpolation). -/
def tmplStr : StrB → String
  | .str s => s
  | .bool true => "true"
  | .bool false => "false"
  | .undef => "undefined"

/-- First index of `p` in a token list (JS `Array.prototype.indexOf`). -/
def listIdxOf : List String → String → Option Nat
  | [], _ => none
  | x :: xs, p => if x == p then some 0 else (listIdxOf xs p).map (fun n => n + 1)

/-- Script-command token separators: whitespace, `=`, and quotes. -/
def isScriptSep (c : Char) : Bool :=
  c == ' ' || c == '\t' || c == '\n' || c == '=' ||
  c == Char.ofNat 39 || c == Char.ofNat 34

/-- Tokenize a manifest script command string for sub-flag scanning. -/
def tokenizeScript (s : String) : List String :=
  ((splitOnPred isScriptSep s.data).filter (fun l => l != [])).map
    (fun l => (⟨l⟩ : String))

/-- Modelled from the spec: the repository's `getStorybookConfiguration`
helper is not under `src/`; per the spec it is "a miniature command-line
tokenizer... a pure function taking a command string and a flag name,
returning an optional value", scanning the script's tokens for recognized
switches (`--https` presence implies TLS; `--ssl-cert`, `--ssl-key`,
`--ssl-ca`, `-p`/`--port` give values).  A switch followed by nothing or
by another dash-token counts as present-without-value (`true`); an absent
switch yields `undefined`; when several of the requested flag names occur,
the last occurrence in the token list wins. -/
def getStorybookConfiguration (script : String) (params : List String) : StrB :=
  let parts := tokenizeScript script
  let found := params.filterMap (fun p => listIdxOf parts p)
  match found with
  | [] => .undef
  | i :: is =>
    let idx := is.foldl max i
    match parts[idx + 1]? with
    | none => .bool true
    | some nxt => if jsStartsWith nxt "-" then .bool true else .str nxt

/-- A parsed URL in the modelled subset of Node's legacy `url.parse`:
`protocol` keeps its trailing colon (`"http:"`), `host` is
`hostname[:port]`, `pathname` always starts with `/` (legacy parse sets
`pathname = '/'` for a slashed protocol with a hostname and no path). -/
structure ParsedUrl where
  protocol : String
  host : String
  pathname : String
deriving DecidableEq, Repr

/-- Split a char list at the first `://`, returning the part before and
the part after; `none` when there is no `://`. -/
def splitProto : List Char → Option (List Char × List Char)
  | [] => none
  | c :: cs =>
    if c = ':' ∧ cs.take 2 = ['/', '/'] then some ([], cs.drop 2)
    else (splitProto cs).map (fun pr => (c :: pr.1, pr.2))

/-- Characters admitted in the modelled host part (`localhost:9009`). -/
def hostCharOk (c : Char) : Bool :=
  c.isLower || c.isDigit || c == '.' || c == '-' || c == ':'

/-- Characters admitted in the modelled pathname part: characters Node's
legacy parser passes through unescaped. -/
def pathCharOk (c : Char) : Bool :=
  c.isAlphanum || c == '/' || c == '.' || c == '-' || c == '_'

/-- Node's legacy `url.parse`, modelled on absolute `http`/`https` URLs
without query, fragment or auth parts and without characters the legacy
parser would escape or normalize; `none` means the string is outside the
modelled subset. -/
def urlParse (s : String) : Option ParsedUrl :=
  match splitProto s.data with
  | none => none
  | some (proto, rest) =>
    let host := rest.takeWhile (fun c => c != '/')
    let path := rest.dropWhile (fun c => c != '/')
    if (proto = "http".data ∨ proto = "https".data) ∧ host ≠ [] ∧
        host.all hostCharOk ∧ path.all pathCharOk then
      some ⟨(⟨proto⟩ : String) ++ ":", ⟨host⟩, if path = [] then "/" else ⟨path⟩⟩
    else none

/-- Node's legacy `Url.prototype.format` on the modelled subset:
`protocol + '//' + host + pathname`. -/
def urlFormat (pu : ParsedUrl) : String :=
  pu.protocol ++ "//" ++ pu.host ++ pu.pathname

/-- Lines 171–177 of the source: append the fixed `iframe.html` suffix to
the pathname unless it is already there, ensuring a trailing `/` first. -/
def appendSuffix (pu : ParsedUrl) : ParsedUrl :=
  if jsEndsWith pu.pathname "iframe.html" then pu
  else if jsEndsWith pu.pathname "/" then
    { pu with pathname := pu.pathname ++ "iframe.html" }
  else
    { pu with pathname := pu.pathname ++ "/" ++ "iframe.html" }

/-- Well-formedness of a modelled parsed URL: exactly the shape
`urlParse` produces. -/
def wfPU (pu : ParsedUrl) : Bool :=
  (pu.protocol == "http:" || pu.protocol == "https:") &&
  pu.host.data != [] && pu.host.data.all hostCharOk &&
  pu.pathname.data != [] && (pu.pathname.data.head? == some '/') &&
  pu.pathname.data.all pathCharOk

/-- The project manifest: an optional `scripts` mapping from script name
to shell command string (`package.json` objects have unique keys). -/
structure PackageJson where
  scripts : Option (List (String × String))
deriving DecidableEq, Repr

/-- JS `packageJson.scripts && packageJson.scripts[name]`: the script
command string for `name`, or `none`. -/
def scriptGet (pkg : PackageJson) (name : String) : Option String :=
  match pkg.scripts with
  | none => none
  | some l => (l.find? (fun kv => kv.1 == name)).map (fun kv => kv.2)

/-- The raw flags record consumed by `getOptions` (only the flags the
source reads).  Flags the source compares against `''` or passes to
`takeLast`/`Array.isArray` are typed accordingly. -/
structure Flags where
  projectToken : FlagVal
  appCode : FlagVal
  patchBuild : Option String
  config : Option String
  only : Option String
  list : Bool
  ci : Bool
  skip : Option String
  debug : Bool
  interactive : Bool
  autoAcceptChanges : Option String
  exitZeroOnChanges : Option String
  exitOnceUploaded : Option String
  ignoreLastBuildOnBranch : Option String
  preserveMissing : Bool
  buildScriptName : Option String
  allowConsoleErrors : Bool
  scriptName : Option String
  exec : Option String
  doNotStart : Bool
  storybookHttps : Bool
  storybookCert : Option String
  storybookKey : Option String
  storybookCa : Option String
  storybookPort : Option String
  storybookUrl : Option String
  storybookBuildDir : FlagVal
deriving DecidableEq, Repr

/-- The normalized `options` record built on lines 31–73 of the source. -/
structure Options where
  projectToken : Option String
  config : Option String
  only : Option String
  list : Bool
  fromCI : Bool
  skip : StrB
  verbose : Bool
  interactive : Bool
  autoAcceptChanges : StrB
  exitZeroOnChanges : StrB
  exitOnceUploaded : StrB
  ignoreLastBuildOnBranch : Option String
  preserveMissingSpecs : Bool
  originalArgv : List String
  buildScriptName : Option String
  allowConsoleErrors : Bool
  scriptName : StrB
  exec : Option String
  noStart : Bool
  https : Bool
  cert : Option String
  key : Option String
  ca : Option String
  port : Option String
  storybookUrl : StrB
  storybookBuildDir : Option String
  createTunnel : Bool
  indexUrl : Option String
  tunnelUrl : Option String
  patchHeadRef : Option String
  patchBaseRef : Option String
deriving DecidableEq, Repr

/-- A resolved configuration: the spread `options` base plus the fields
the three `return` sites override (`noStart`, `https`, `url`,
`scriptName`, `buildScriptName`).  `url` is `none` for the static-dir and
build modes, which return before URL finalization. -/
structure Resolved where
  base : Options
  noStart : Bool
  https : HVal
  url : Option String
  scriptName : StrB
  buildScriptName : Option String
deriving DecidableEq, Repr

/-- The outcome of `getOptions`: a resolved configuration, one of the nine
named errors, a JS `TypeError` escaping from a stdlib call applied outside
its precondition (`url.parse` on a boolean, `true.startsWith`), or a URL
string outside the modelled `url.parse` subset. -/
inductive GOResult where
  | ok (cfg : Resolved)
  | err (e : ErrKind)
  | typeError
  | unmodeledUrl (s : String)
deriving DecidableEq, Repr

/-- The token fallback chain of line 32:
`takeLast(flags.projectToken || flags.appCode) || CHROMATIC_PROJECT_TOKEN`. -/
def tokenChain (pt ac : FlagVal) (envTok : Option String) : Option String :=
  jsOr (takeLast (if truthyF pt then pt else ac)) envTok

/-- Line 29: `(flags.patchBuild || '').split('...').filter(Boolean)`. -/
def patchRefs (s : String) : List String :=
  (jsSplitDots s).filter (fun t => t != "")

/-- Lines 31–73: the option normalizer. -/
def normalizeFlags (env : Env) (argv : List String) (f : Flags) : Options :=
  let patchPieces := patchRefs (f.patchBuild.getD "")
  { projectToken := tokenChain f.projectToken f.appCode env.chromaticProjectToken
    config := f.config
    only := f.only
    list := f.list
    fromCI := f.ci
    skip := normET f.skip
    verbose := f.debug
    interactive := !f.ci && f.interactive
    autoAcceptChanges := normET f.autoAcceptChanges
    exitZeroOnChanges := normET f.exitZeroOnChanges
    exitOnceUploaded := normET f.exitOnceUploaded
    ignoreLastBuildOnBranch := f.ignoreLastBuildOnBranch
    preserveMissingSpecs := f.preserveMissing
    originalArgv := argv
    buildScriptName := f.buildScriptName
    allowConsoleErrors := f.allowConsoleErrors
    scriptName := normET f.scriptName
    exec := f.exec
    noStart := f.doNotStart
    https := f.storybookHttps
    cert := f.storybookCert
    key := f.storybookKey
    ca := f.storybookCa
    port := f.storybookPort
    storybookUrl := normET f.storybookUrl
    storybookBuildDir :=
      match f.storybookBuildDir with
      | .undef => none
      | .str s => if s = "" then none else some (pathResolve env.cwd s)
      | .arr x _ => some (pathResolve env.cwd x)
    createTunnel := !truthyS f.storybookUrl && env.chromaticCreateTunnel != some "false"
    indexUrl := env.chromaticIndexUrl
    tunnelUrl := env.chromaticTunnelUrl
    patchHeadRef := patchPieces[0]?
    patchBaseRef := patchPieces[1]? }

/-- Lines 98–105: the labels of the truthy singular selectors, in object
key order. -/
def foundSingularLabels (o : Options) : List String :=
  (if truthyS o.buildScriptName then ["--build-script-name"] else []) ++
  (if truthyB o.scriptName then ["--script-name"] else []) ++
  (if truthyS o.exec then ["--exec"] else []) ++
  (if truthyB o.storybookUrl then ["--storybook-url"] else []) ++
  (if truthyS o.storybookBuildDir then ["--storybook-build-dir"] else [])

/-- The static-directory return of line 127: `{ ...options, noStart: true }`
(the `https` field stays the raw boolean flag value). -/
def mkStatic (o : Options) : Resolved :=
  ⟨o, true, .bool o.https, none, o.scriptName, o.buildScriptName⟩

/-- The build-mode return of line 131:
`{ ...options, noStart: true, buildScriptName }`. -/
def mkBuild (o : Options) (name : String) : Resolved :=
  ⟨o, true, .bool o.https, none, o.scriptName, some name⟩

/-- `'https' or 'http'` plus `'://localhost:' + port` (line 167). -/
def composeUrl (https : HVal) (port : String) : String :=
  (if truthyH https then "https" else "http") ++ "://localhost:" ++ port

/-- Lines 170–185: parse the candidate URL, append the `iframe.html`
suffix, re-serialize, and build the final return object.  A non-string
candidate makes Node's legacy `url.parse` throw a TypeError. -/
def finalizeUrl (o : Options) (noStart : Bool) (https : HVal) (sn : StrB)
    (cand : StrB) : GOResult :=
  match cand with
  | .str s =>
    match urlParse s with
    | some pu =>
      .ok ⟨o, noStart, https, some (urlFormat (appendSuffix pu)), sn, o.buildScriptName⟩
    | none => .unmodeledUrl s
  | .bool _ => .typeError
  | .undef => .typeError

/-- Lines 125–134: build mode (reached when no selector, start or port
flag applies). -/
def buildMode (pkg : PackageJson) (o : Options) : GOResult :=
  if truthyS o.storybookBuildDir then .ok (mkStatic o)
  else
    let name := o.buildScriptName.getD "build-storybook"
    if truthyS (scriptGet pkg name) then .ok (mkBuild o name)
    else .err (.missingBuildScriptName name)

/-- Lines 142–165 inner block: look up the storybook script, infer
`https` and `port` from it (caller values first), and compose the
localhost URL. -/
def inferAndCompose (env : Env) (o : Options) (noStart : Bool) (https0 : HVal)
    (sname script : String) : GOResult :=
  let httpsR : Except Unit HVal :=
    if truthyH https0 then .ok https0
    else if truthyB (getStorybookConfiguration script ["--https"]) then
      match resolveHomeDirV env (getStorybookConfiguration script ["--ssl-cert"]),
            resolveHomeDirV env (getStorybookConfiguration script ["--ssl-key"]),
            resolveHomeDirV env (getStorybookConfiguration script ["--ssl-ca"]) with
      | .ok c, .ok k, .ok a => .ok (.obj c k a)
      | _, _, _ => .error ()
    else .ok (.bool false)
  match httpsR with
  | .error _ => .typeError
  | .ok https1 =>
    let port1 : StrB :=
      if truthyS o.port then .str (o.port.getD "")
      else getStorybookConfiguration script ["-p", "--port"]
    if !truthyB port1 then .err (.unknownStorybookPort sname)
    else finalizeUrl o noStart https1 (.str sname) (.str (composeUrl https1 (tmplStr port1)))

/-- Lines 136–185: URL mode and start mode, ending in URL finalization. -/
def startOrUrl (env : Env) (pkg : PackageJson) (o : Options) (noStart : Bool) :
    GOResult :=
  let https0 : HVal := if o.https then .obj o.cert o.key o.ca else .bool false
  if truthyB o.storybookUrl then
    finalizeUrl o noStart https0 o.scriptName o.storybookUrl
  else if truthyS o.exec && !truthyS o.port then .err .missingStorybookPort
  else if !truthyS o.exec && (!truthyS o.port || !noStart) then
    let sname := match o.scriptName with
      | .str s => s
      | _ => "storybook"
    let script := scriptGet pkg sname
    if truthyS script then inferAndCompose env o noStart https0 sname (script.getD "")
    else .err (.missingScriptName sname)
  else
    finalizeUrl o noStart https0 o.scriptName
      (.str (composeUrl https0 (o.port.getD "")))

/-- Lines 111–185: forcing of `noStart` by a URL target, the
`exitOnceUploaded` checks, and mode selection. -/
def resolveModes (env : Env) (pkg : PackageJson) (o : Options) : GOResult :=
  let noStart := truthyB o.storybookUrl || o.noStart
  if noStart && truthyB o.exitOnceUploaded then .err .invalidExitOnceUploaded
  else if truthyB o.scriptName && truthyB o.exitOnceUploaded then .err .invalidExitOnceUploaded
  else if !truthyB o.scriptName && !truthyS o.exec && !noStart &&
      !truthyB o.storybookUrl && !truthyS o.port then buildMode pkg o
  else startOrUrl env pkg o noStart

/-- `getOptions` from the source: normalize the flags, run the ordered
validation checks, then resolve the mode and final URL. -/
def getOptions (env : Env) (pkg : PackageJson) (argv : List String)
    (f : Flags) : GOResult :=
  let o := normalizeFlags env argv f
  if !truthyS o.projectToken then .err .missingProjectToken
  else if truthyS f.patchBuild &&
      (!truthyS o.patchHeadRef || !truthyS o.patchBaseRef) then .err .invalidPatchBuild
  else if truthyS f.patchBuild && (o.patchHeadRef == o.patchBaseRef) then
    .err .duplicatePatchBuild
  else if 1 < (foundSingularLabels o).length then
    .err (.invalidSingularOptions (foundSingularLabels o))
  else resolveModes env pkg o

/-- Validation checks 1 and 2 pass: the token is truthy and the
`patchBuild` flag, when given, parses into two distinct truthy refs. -/
def patchOk (f : Flags) (o : Options) : Bool :=
  !truthyS f.patchBuild ||
    (truthyS o.patchHeadRef && truthyS o.patchBaseRef &&
     !(o.patchHeadRef == o.patchBaseRef))

lemma finalizeUrl_ne_err (o : Options) (ns : Bool) (h : HVal) (sn cand : StrB)
    (e : ErrKind) : finalizeUrl o ns h sn cand ≠ .err e := by
  unfold finalizeUrl
  rcases cand with _ | b | s <;> simp
  split <;> simp

lemma inferAndCompose_err (env : Env) (o : Options) (ns : Bool) (h0 : HVal)
    (sn script : String) (e : ErrKind)
    (he : inferAndCompose env o ns h0 sn script = .err e) :
    e = .unknownStorybookPort sn := by
  unfold inferAndCompose at he
  simp only [] at he
  repeat' split at he
  all_goals try exact absurd he (finalizeUrl_ne_err _ _ _ _ _ _)
  all_goals simp at he
  all_goals exact he.symm

lemma startOrUrl_err (env : Env) (pkg : PackageJson) (o : Options) (ns : Bool)
    (e : ErrKind) (he : startOrUrl env pkg o ns = .err e) :
    e = .missingStorybookPort ∨ (∃ n, e = .missingScriptName n) ∨
    (∃ n, e = .unknownStorybookPort n) := by
  unfold startOrUrl at he
  simp only [] at he
  repeat' split at he
  all_goals try exact absurd he (finalizeUrl_ne_err _ _ _ _ _ _)
  all_goals try (exact Or.inr (Or.inr ⟨_, inferAndCompose_err _ _ _ _ _ _ _ he⟩))
  all_goals simp at he
  all_goals first
    | exact Or.inl he.symm
    | exact Or.inr (Or.inl ⟨_, he.symm⟩)

lemma buildMode_err (pkg : PackageJson) (o : Options) (e : ErrKind)
    (he : buildMode pkg o = .err e) : ∃ n, e = .missingBuildScriptName n := by
  unfold buildMode at he
  simp only [] at he
  repeat' split at he
  all_goals simp at he
  exact ⟨_, he.symm⟩

lemma resolveModes_err (env : Env) (pkg : PackageJson) (o : Options) (e : ErrKind)
    (he : resolveModes env pkg o = .err e) :
    e ≠ .missingProjectToken ∧ e ≠ .invalidPatchBuild ∧ e ≠ .duplicatePatchBuild ∧
    (∀ L, e ≠ .invalidSingularOptions L) := by
  unfold resolveModes at he
  simp only [] at he
  split at he
  · simp at he
    subst he
    exact ⟨by simp, by simp, by simp, by simp⟩
  · split at he
    · simp at he
      subst he
      exact ⟨by simp, by simp, by simp, by simp⟩
    · split at he
      · obtain ⟨n, rfl⟩ := buildMode_err _ _ _ he
        exact ⟨by simp, by simp, by simp, by simp⟩
      · rcases startOrUrl_err _ _ _ _ _ he with rfl | ⟨n, rfl⟩ | ⟨n, rfl⟩
        · exact ⟨by simp, by simp, by simp, by simp⟩
        · exact ⟨by simp, by simp, by simp, by simp⟩
        · exact ⟨by simp, by simp, by simp, by simp⟩

lemma getOptions_validated (env : Env) (pkg : PackageJson) (argv : List String)
    (f : Flags)
    (htok : truthyS (normalizeFlags env argv f).projectToken = true)
    (hpatch : patchOk f (normalizeFlags env argv f) = true)
    (hsing : (foundSingularLabels (normalizeFlags env argv f)).length ≤ 1) :
    getOptions env pkg argv f = resolveModes env pkg (normalizeFlags env argv f) := by
  unfold getOptions
  cases hpf : truthyS f.patchBuild with
  | false => simp [htok, hpf, Nat.not_lt.mpr hsing]
  | true =>
    unfold patchOk at hpatch
    rw [hpf] at hpatch
    simp at hpatch
    obtain ⟨⟨hh, hb⟩, hne⟩ := hpatch
    simp [htok, hpf, hh, hb, hne, Nat.not_lt.mpr hsing]

/-- The `url` field of a successful resolution. -/
def urlOf : GOResult → Option String
  | .ok cfg => cfg.url
  | _ => none

/-- The `https` field of a successful resolution. -/
def httpsOf : GOResult → Option HVal
  | .ok cfg => some cfg.https
  | _ => none

/-- The `noStart` field of a successful resolution. -/
def noStartOf : GOResult → Option Bool
  | .ok cfg => some cfg.noStart
  | _ => none

/-- A flags record with every flag absent. -/
def flags0 : Flags :=
  { projectToken := .undef, appCode := .undef, patchBuild := none,
    config := none, only := none, list := false, ci := false, skip := none,
    debug := false, interactive := false, autoAcceptChanges := none,
    exitZeroOnChanges := none, exitOnceUploaded := none,
    ignoreLastBuildOnBranch := none, preserveMissing := false,
    buildScriptName := none, allowConsoleErrors := false, scriptName := none,
    exec := none, doNotStart := false, storybookHttps := false,
    storybookCert := none, storybookKey := none, storybookCa := none,
    storybookPort := none, storybookUrl := none, storybookBuildDir := .undef }

/-- An environment with no `CHROMATIC_*` defaults. -/
def env0 : Env :=
  { home := "/root", cwd := "/proj", chromaticProjectToken := none,
    chromaticIndexUrl := none, chromaticTunnelUrl := none,
    chromaticCreateTunnel := none }

/-- A manifest with only a default build script. -/
def pkgBuild : PackageJson := ⟨some [("build-storybook", "build-storybook -o dist")]⟩

/-- A manifest with only a default start script naming port 9009. -/
def pkgStart : PackageJson := ⟨some [("storybook", "start-storybook -p 9009")]⟩

/-- The start script of the spec's https example. -/
def pkgHttps : PackageJson :=
  ⟨some [("storybook",
    "start-storybook -p 9009 --https --ssl-cert=./c.pem --ssl-key=./k.pem")]⟩

lemma normalizeFlags_projectToken (env : Env) (argv : List String) (f : Flags) :
    (normalizeFlags env argv f).projectToken =
      tokenChain f.projectToken f.appCode env.chromaticProjectToken := rfl

/-- C1 (amended).  The token check fails exactly when the chained value
`takeLast(projectToken || appCode) || envDefault` is falsy; the normalized
record stores exactly that chained value; and whenever the `projectToken`
flag is not a repeated (array) flag, the chain coincides with "first
truthy of projectToken value, appCode value, environment default". -/
theorem c1_token_chain (env : Env) (pkg : PackageJson) (argv : List String)
    (f : Flags) :
    (getOptions env pkg argv f = .err .missingProjectToken ↔
      truthyS (tokenChain f.projectToken f.appCode env.chromaticProjectToken) = false) ∧
    (normalizeFlags env argv f).projectToken =
      tokenChain f.projectToken f.appCode env.chromaticProjectToken ∧
    ((∀ x xs, f.projectToken ≠ .arr x xs) →
      tokenChain f.projectToken f.appCode env.chromaticProjectToken =
        jsOr (jsOr (takeLast f.projectToken) (takeLast f.appCode))
          env.chromaticProjectToken) := by
  refine ⟨?_, rfl, ?_⟩
  · unfold getOptions
    cases ht : truthyS (tokenChain f.projectToken f.appCode env.chromaticProjectToken) with
    | false =>
      simp [normalizeFlags_projectToken, ht]
    | true =>
      simp only [normalizeFlags_projectToken, ht, Bool.not_true, Bool.false_eq_true,
        if_false, Bool.true_eq_false, iff_false]
      intro h
      split at h
      · simp at h
      · split at h
        · simp at h
        · split at h
          · simp at h
          · exact absurd rfl (resolveModes_err _ _ _ _ h).1
  · intro hpt
    rcases hp : f.projectToken with _ | s | ⟨x, xs⟩
    · rcases ha : f.appCode with _ | s | ⟨y, ys⟩ <;>
        simp [tokenChain, jsOr, takeLast, truthyF]
    · by_cases hs : s = "" <;>
        rcases ha : f.appCode with _ | t | ⟨y, ys⟩ <;>
        simp [tokenChain, jsOr, takeLast, truthyF, hs]
    · exact absurd hp (hpt x xs)

/-- C1 witness: with no token from any source the amended theorem's
equivalence yields the `MissingProjectToken` failure. -/
theorem c1_token_chain_witness :
    getOptions env0 pkgBuild [] flags0 = .err .missingProjectToken :=
  (c1_token_chain env0 pkgBuild [] flags0).1.mpr (by decide)

/-- C1 counterexample: a repeated `projectToken` flag whose last occurrence
is the empty string short-circuits the chain, so the truthy `appCode`
source is never consulted and the check fails — refuting "if any one of
the three sources supplies a token ... this check passes". -/
theorem c1_counterexample :
    truthyF (Flags.appCode { flags0 with
        projectToken := .arr "tok" [""], appCode := .str "real" }) = true ∧
    getOptions env0 pkgBuild []
      { flags0 with projectToken := .arr "tok" [""], appCode := .str "real" } =
      .err .missingProjectToken := by
  constructor
  · decide
  · decide

lemma normalizeFlags_patchHeadRef (env : Env) (argv : List String) (f : Flags) :
    (normalizeFlags env argv f).patchHeadRef =
      (patchRefs (f.patchBuild.getD ""))[0]? := rfl

lemma normalizeFlags_patchBaseRef (env : Env) (argv : List String) (f : Flags) :
    (normalizeFlags env argv f).patchBaseRef =
      (patchRefs (f.patchBuild.getD ""))[1]? := rfl

lemma patchRefs_mem_ne_empty (s t : String) (ht : t ∈ patchRefs s) : t ≠ "" := by
  unfold patchRefs at ht
  have := List.of_mem_filter ht
  simpa using this

/-- C2 (as claimed).  With the token check passing: a non-empty
`patchBuild` flag whose `...`-split (empty segments removed) yields fewer
than two refs fails with `InvalidPatchBuild`; one yielding equal head and
base refs fails with `DuplicatePatchBuild`; an absent `patchBuild` raises
neither error. -/
theorem c2_patch_build (env : Env) (pkg : PackageJson) (argv : List String)
    (f : Flags)
    (htok : truthyS (normalizeFlags env argv f).projectToken = true) :
    (∀ s, f.patchBuild = some s → s ≠ "" →
      ((patchRefs s).length < 2 →
        getOptions env pkg argv f = .err .invalidPatchBuild) ∧
      (∀ h b t, patchRefs s = h :: b :: t → h = b →
        getOptions env pkg argv f = .err .duplicatePatchBuild)) ∧
    (f.patchBuild = none →
      getOptions env pkg argv f ≠ .err .invalidPatchBuild ∧
      getOptions env pkg argv f ≠ .err .duplicatePatchBuild) := by
  constructor
  · intro s hs hne
    have hpb : truthyS (some s) = true := by
      simpa [truthyS] using hne
    have tnone : truthyS (none : Option String) = false := rfl
    constructor
    · intro hlen
      have hbase : (patchRefs s)[1]? = none := List.getElem?_eq_none (by omega)
      unfold getOptions
      simp only []
      rw [normalizeFlags_patchBaseRef, hs]
      simp only [Option.getD_some, hbase]
      simp [htok, hpb, tnone]
    · intro h b t hrefs hhb
      have hht : truthyS (some h) = true := by
        simpa [truthyS] using
          patchRefs_mem_ne_empty s h (by rw [hrefs]; exact List.mem_cons_self _ _)
      have hbt : truthyS (some b) = true := by
        simpa [truthyS] using
          patchRefs_mem_ne_empty s b
            (by rw [hrefs]; exact List.mem_cons_of_mem _ (List.mem_cons_self _ _))
      unfold getOptions
      simp only []
      rw [normalizeFlags_patchHeadRef, normalizeFlags_patchBaseRef, hs]
      simp only [Option.getD_some, hrefs]
      simp only [List.getElem?_cons_zero, List.getElem?_cons_succ]
      subst hhb
      simp [htok, hpb, hht, hbt]
  · intro hnone
    have hpb : truthyS f.patchBuild = false := by rw [hnone]; rfl
    unfold getOptions
    rw [normalizeFlags_projectToken] at htok
    simp only [normalizeFlags_projectToken, htok, hpb, Bool.not_true, Bool.false_and,
      Bool.false_eq_true, if_false]
    constructor
    · intro h
      split at h
      · simp at h
      · exact absurd rfl (resolveModes_err _ _ _ _ h).2.1
    · intro h
      split at h
      · simp at h
      · exact absurd rfl (resolveModes_err _ _ _ _ h).2.2.1

/-- A flags record whose only content is a scalar project token. -/
def flagsTok : Flags := { flags0 with projectToken := .str "t" }

/-- C2 witness: `patchBuild = "a"` fails with `InvalidPatchBuild`,
`patchBuild = "a...a"` with `DuplicatePatchBuild`, and the no-patch
input raises neither. -/
theorem c2_patch_build_witness :
    getOptions env0 pkgBuild [] { flagsTok with patchBuild := some "a" } =
      .err .invalidPatchBuild ∧
    getOptions env0 pkgBuild [] { flagsTok with patchBuild := some "a...a" } =
      .err .duplicatePatchBuild ∧
    getOptions env0 pkgBuild [] flagsTok ≠ .err .invalidPatchBuild := by
  refine ⟨?_, ?_, ?_⟩
  · exact ((c2_patch_build env0 pkgBuild []
      { flagsTok with patchBuild := some "a" } (by decide)).1 "a" rfl
      (by decide)).1 (by decide)
  · exact ((c2_patch_build env0 pkgBuild []
      { flagsTok with patchBuild := some "a...a" } (by decide)).1 "a...a" rfl
      (by decide)).2 "a" "a" [] (by decide) rfl
  · exact ((c2_patch_build env0 pkgBuild [] flagsTok (by decide)).2 rfl).1

lemma foundSingularLabels_mem (o : Options) :
    ("--build-script-name" ∈ foundSingularLabels o ↔ truthyS o.buildScriptName = true) ∧
    ("--script-name" ∈ foundSingularLabels o ↔ truthyB o.scriptName = true) ∧
    ("--exec" ∈ foundSingularLabels o ↔ truthyS o.exec = true) ∧
    ("--storybook-url" ∈ foundSingularLabels o ↔ truthyB o.storybookUrl = true) ∧
    ("--storybook-build-dir" ∈ foundSingularLabels o ↔ truthyS o.storybookBuildDir = true) := by
  unfold foundSingularLabels
  cases h1 : truthyS o.buildScriptName <;> cases h2 : truthyB o.scriptName <;>
    cases h3 : truthyS o.exec <;> cases h4 : truthyB o.storybookUrl <;>
    cases h5 : truthyS o.storybookBuildDir <;> simp

/-- C3.  With the earlier checks passing: two or more truthy singular
selectors make resolution fail with `InvalidSingularOptions` carrying
exactly the label list of the truthy selectors; that list contains each
selector's flag label exactly when that selector is truthy; with at most
one truthy selector the error is never raised. -/
theorem c3_singular_options (env : Env) (pkg : PackageJson) (argv : List String)
    (f : Flags)
    (htok : truthyS (normalizeFlags env argv f).projectToken = true)
    (hpatch : patchOk f (normalizeFlags env argv f) = true) :
    (1 < (foundSingularLabels (normalizeFlags env argv f)).length →
      getOptions env pkg argv f =
        .err (.invalidSingularOptions (foundSingularLabels (normalizeFlags env argv f)))) ∧
    (("--build-script-name" ∈ foundSingularLabels (normalizeFlags env argv f) ↔
        truthyS (normalizeFlags env argv f).buildScriptName = true) ∧
      ("--script-name" ∈ foundSingularLabels (normalizeFlags env argv f) ↔
        truthyB (normalizeFlags env argv f).scriptName = true) ∧
      ("--exec" ∈ foundSingularLabels (normalizeFlags env argv f) ↔
        truthyS (normalizeFlags env argv f).exec = true) ∧
      ("--storybook-url" ∈ foundSingularLabels (normalizeFlags env argv f) ↔
        truthyB (normalizeFlags env argv f).storybookUrl = true) ∧
      ("--storybook-build-dir" ∈ foundSingularLabels (normalizeFlags env argv f) ↔
        truthyS (normalizeFlags env argv f).storybookBuildDir = true)) ∧
    ((foundSingularLabels (normalizeFlags env argv f)).length ≤ 1 →
      ∀ L, getOptions env pkg argv f ≠ .err (.invalidSingularOptions L)) := by
  refine ⟨?_, foundSingularLabels_mem _, ?_⟩
  · intro hcount
    unfold getOptions
    cases hpf : truthyS f.patchBuild with
    | false => simp [htok, hpf, hcount]
    | true =>
      unfold patchOk at hpatch
      rw [hpf] at hpatch
      simp at hpatch
      obtain ⟨⟨hh, hb⟩, hne⟩ := hpatch
      simp [htok, hpf, hh, hb, hne, hcount]
  · intro hsing L h
    rw [getOptions_validated env pkg argv f htok hpatch hsing] at h
    exact absurd rfl ((resolveModes_err _ _ _ _ h).2.2.2 L)

/-- C3 witness: `--exec` together with `--storybook-url` fails naming
both flags, and a single selector does not raise the error. -/
theorem c3_singular_options_witness :
    getOptions env0 pkgBuild []
      { flagsTok with exec := some "x", storybookUrl := some "http://localhost:6006" } =
      .err (.invalidSingularOptions ["--exec", "--storybook-url"]) ∧
    (∀ L, getOptions env0 pkgStart []
      { flagsTok with scriptName := some "" } ≠ .err (.invalidSingularOptions L)) := by
  constructor
  · exact ((c3_singular_options env0 pkgBuild []
      { flagsTok with exec := some "x", storybookUrl := some "http://localhost:6006" }
      (by decide) (by decide)).1 (by decide)).trans (by decide)
  · exact (c3_singular_options env0 pkgStart [] { flagsTok with scriptName := some "" }
      (by decide) (by decide)).2.2 (by decide)

lemma finalizeUrl_ok_noStart (o : Options) (ns : Bool) (h : HVal) (sn cand : StrB)
    (cfg : Resolved) (he : finalizeUrl o ns h sn cand = .ok cfg) :
    cfg.noStart = ns := by
  unfold finalizeUrl at he
  rcases cand with _ | b | s <;> simp at he
  split at he <;> simp at he
  rw [← he]

lemma inferAndCompose_ok_noStart (env : Env) (o : Options) (ns : Bool) (h0 : HVal)
    (sn script : String) (cfg : Resolved)
    (he : inferAndCompose env o ns h0 sn script = .ok cfg) : cfg.noStart = ns := by
  unfold inferAndCompose at he
  simp only [] at he
  repeat' split at he
  all_goals try exact finalizeUrl_ok_noStart _ _ _ _ _ _ he
  all_goals simp at he

lemma startOrUrl_ok_noStart (env : Env) (pkg : PackageJson) (o : Options) (ns : Bool)
    (cfg : Resolved) (he : startOrUrl env pkg o ns = .ok cfg) : cfg.noStart = ns := by
  unfold startOrUrl at he
  simp only [] at he
  repeat' split at he
  all_goals try exact finalizeUrl_ok_noStart _ _ _ _ _ _ he
  all_goals try exact inferAndCompose_ok_noStart _ _ _ _ _ _ _ he
  all_goals simp at he

/-- C4.  A truthy `storybookUrl` forces `noStart = true` in any successful
resolution; and (earlier checks passing) `exitOnceUploaded` together with
`noStart` (explicit or forced by `storybookUrl`) or with a truthy
`scriptName` selector fails with `InvalidExitOnceUploaded`. -/
theorem c4_exit_once_uploaded (env : Env) (pkg : PackageJson) (argv : List String)
    (f : Flags) :
    (∀ cfg, getOptions env pkg argv f = .ok cfg →
      truthyB (normalizeFlags env argv f).storybookUrl = true →
      cfg.noStart = true) ∧
    (truthyS (normalizeFlags env argv f).projectToken = true →
      patchOk f (normalizeFlags env argv f) = true →
      (foundSingularLabels (normalizeFlags env argv f)).length ≤ 1 →
      truthyB (normalizeFlags env argv f).exitOnceUploaded = true →
      ((normalizeFlags env argv f).noStart = true ∨
        truthyB (normalizeFlags env argv f).storybookUrl = true ∨
        truthyB (normalizeFlags env argv f).scriptName = true) →
      getOptions env pkg argv f = .err .invalidExitOnceUploaded) := by
  constructor
  · intro cfg hok hurl
    unfold getOptions at hok
    simp only [] at hok
    split at hok
    · simp at hok
    · split at hok
      · simp at hok
      · split at hok
        · simp at hok
        · split at hok
          · simp at hok
          · unfold resolveModes at hok
            simp only [] at hok
            split at hok
            · simp at hok
            · split at hok
              · simp at hok
              · split at hok
                · rename_i hcond
                  rw [hurl] at hcond
                  simp at hcond
                · have := startOrUrl_ok_noStart _ _ _ _ _ hok
                  rw [this, hurl]
                  simp
  · intro htok hpatch hsing heou hdisj
    rw [getOptions_validated env pkg argv f htok hpatch hsing]
    unfold resolveModes
    simp only []
    rcases hdisj with h | h | h
    · simp [h, heou]
    · simp [h, heou]
    · cases hns : (truthyB (normalizeFlags env argv f).storybookUrl ||
        (normalizeFlags env argv f).noStart) <;> simp [hns, h, heou]

/-- Whether a resolution succeeded. -/
def isOkB : GOResult → Bool
  | .ok _ => true
  | _ => false

/-- C4 witness: a URL target yields `noStart = true` even with
`doNotStart` absent, and `exitOnceUploaded` with `doNotStart` fails. -/
theorem c4_exit_once_uploaded_witness :
    noStartOf (getOptions env0 pkgBuild []
      { flagsTok with storybookUrl := some "http://localhost:6006" }) = some true ∧
    getOptions env0 pkgBuild []
      { flagsTok with doNotStart := true, exitOnceUploaded := some "" } =
      .err .invalidExitOnceUploaded := by
  constructor
  · have hshape : isOkB (getOptions env0 pkgBuild []
        { flagsTok with storybookUrl := some "http://localhost:6006" }) = true := by
      decide
    rcases hr : getOptions env0 pkgBuild []
        { flagsTok with storybookUrl := some "http://localhost:6006" }
      with cfg | e | _ | s
    · have hns := (c4_exit_once_uploaded env0 pkgBuild []
        { flagsTok with storybookUrl := some "http://localhost:6006" }).1 cfg hr
        (by decide)
      simp [noStartOf, hns]
    · rw [hr] at hshape; simp [isOkB] at hshape
    · rw [hr] at hshape; simp [isOkB] at hshape
    · rw [hr] at hshape; simp [isOkB] at hshape
  · exact (c4_exit_once_uploaded env0 pkgBuild []
      { flagsTok with doNotStart := true, exitOnceUploaded := some "" }).2
      (by decide) (by decide) (by decide) (by decide) (Or.inl (by decide))

/-- C5 (amended).  With validation passing and `scriptName`, `exec`,
`noStart`, `storybookUrl`, `port` all falsy: a given build directory
returns `noStart = true` without consulting any manifest (the result is
the same for every manifest); otherwise the build script name resolves to
the flag when it is a string (via `Option.getD`, the flag being a string
exactly when present) and to `"build-storybook"` otherwise, succeeding
when the manifest maps that name to a truthy (non-empty) command string
and failing with `MissingBuildScriptName` of that name otherwise —
a key mapped to the empty string counts as missing. -/
theorem c5_build_mode (env : Env) (pkg : PackageJson) (argv : List String)
    (f : Flags)
    (htok : truthyS (normalizeFlags env argv f).projectToken = true)
    (hpatch : patchOk f (normalizeFlags env argv f) = true)
    (hsing : (foundSingularLabels (normalizeFlags env argv f)).length ≤ 1)
    (hsn : truthyB (normalizeFlags env argv f).scriptName = false)
    (hexec : truthyS (normalizeFlags env argv f).exec = false)
    (hns : (normalizeFlags env argv f).noStart = false)
    (hurl : truthyB (normalizeFlags env argv f).storybookUrl = false)
    (hport : truthyS (normalizeFlags env argv f).port = false) :
    (truthyS (normalizeFlags env argv f).storybookBuildDir = true →
      ∀ pkg2, getOptions env pkg2 argv f = .ok (mkStatic (normalizeFlags env argv f))) ∧
    (truthyS (normalizeFlags env argv f).storybookBuildDir = false →
      (truthyS (scriptGet pkg ((normalizeFlags env argv f).buildScriptName.getD
          "build-storybook")) = true →
        getOptions env pkg argv f = .ok (mkBuild (normalizeFlags env argv f)
          ((normalizeFlags env argv f).buildScriptName.getD "build-storybook"))) ∧
      (truthyS (scriptGet pkg ((normalizeFlags env argv f).buildScriptName.getD
          "build-storybook")) = false →
        getOptions env pkg argv f = .err (.missingBuildScriptName
          ((normalizeFlags env argv f).buildScriptName.getD "build-storybook")))) := by
  constructor
  · intro hdir pkg2
    rw [getOptions_validated env pkg2 argv f htok hpatch hsing]
    unfold resolveModes
    simp only []
    rw [hurl, hns]
    simp [hsn, hexec, hurl, hport, buildMode, hdir]
  · intro hdir
    constructor
    · intro hscript
      rw [getOptions_validated env pkg argv f htok hpatch hsing]
      unfold resolveModes
      simp only []
      rw [hurl, hns]
      simp [hsn, hexec, hurl, hport, buildMode, hdir, hscript]
    · intro hscript
      rw [getOptions_validated env pkg argv f htok hpatch hsing]
      unfold resolveModes
      simp only []
      rw [hurl, hns]
      simp [hsn, hexec, hurl, hport, buildMode, hdir, hscript]

/-- C5 witness: a build directory gives the static return for two
different manifests; the default build script resolves against the
manifest; a manifest lacking it fails with the resolved name. -/
theorem c5_build_mode_witness :
    getOptions env0 pkgStart []
      { flagsTok with storybookBuildDir := .str "dist" } =
      .ok (mkStatic (normalizeFlags env0 []
        { flagsTok with storybookBuildDir := .str "dist" })) ∧
    getOptions env0 pkgBuild [] flagsTok =
      .ok (mkBuild (normalizeFlags env0 [] flagsTok) "build-storybook") ∧
    getOptions env0 pkgStart [] flagsTok =
      .err (.missingBuildScriptName "build-storybook") := by
  refine ⟨?_, ?_, ?_⟩
  · exact (c5_build_mode env0 pkgStart []
      { flagsTok with storybookBuildDir := .str "dist" } (by decide) (by decide)
      (by decide) (by decide) (by decide) (by decide) (by decide) (by decide)).1
      (by decide) pkgStart
  · exact ((c5_build_mode env0 pkgBuild [] flagsTok (by decide) (by decide)
      (by decide) (by decide) (by decide) (by decide) (by decide) (by decide)).2
      (by decide)).1 (by decide)
  · exact ((c5_build_mode env0 pkgStart [] flagsTok (by decide) (by decide)
      (by decide) (by decide) (by decide) (by decide) (by decide) (by decide)).2
      (by decide)).2 (by decide)

/-- C5 counterexample: `"build-storybook"` IS a key of the manifest's
scripts mapping, but its value is the empty string, so resolution fails
with `MissingBuildScriptName` — refuting "if that name is a key of the
manifest's scripts mapping the resolution returns". -/
theorem c5_counterexample :
    ((⟨some [("build-storybook", "")]⟩ : PackageJson).scripts.getD []).any
      (fun kv => kv.1 == "build-storybook") = true ∧
    getOptions env0 ⟨some [("build-storybook", "")]⟩ [] flagsTok =
      .err (.missingBuildScriptName "build-storybook") := by
  constructor
  · decide
  · decide

/-- C10.  A bare `--storybook-url` flag (empty-string sentinel) normalizes
to boolean `true`; with a token present and every other selector falsy the
resolver reaches URL finalization with that non-string value, so Node's
`url.parse` is applied outside its string precondition: the outcome is a
TypeError — neither a resolved configuration nor any of the nine named
error kinds. -/
theorem c10_bare_storybook_url (env : Env) (pkg : PackageJson) (argv : List String)
    (f : Flags)
    (htok : truthyS (normalizeFlags env argv f).projectToken = true)
    (hpatch : patchOk f (normalizeFlags env argv f) = true)
    (hurl : f.storybookUrl = some "")
    (hbsn : truthyS (normalizeFlags env argv f).buildScriptName = false)
    (hsn : truthyB (normalizeFlags env argv f).scriptName = false)
    (hexec : truthyS (normalizeFlags env argv f).exec = false)
    (hbdir : truthyS (normalizeFlags env argv f).storybookBuildDir = false)
    (heou : truthyB (normalizeFlags env argv f).exitOnceUploaded = false) :
    getOptions env pkg argv f = .typeError ∧
    (∀ cfg, getOptions env pkg argv f ≠ .ok cfg) ∧
    (∀ e, getOptions env pkg argv f ≠ .err e) := by
  have hub : (normalizeFlags env argv f).storybookUrl = .bool true := by
    show normET f.storybookUrl = .bool true
    rw [hurl]
    rfl
  have htb : truthyB (StrB.bool true) = true := rfl
  have hsing : (foundSingularLabels (normalizeFlags env argv f)).length ≤ 1 := by
    unfold foundSingularLabels
    rw [hub, hbsn, hsn, hexec, hbdir]
    simp [htb]
  have hmain : getOptions env pkg argv f = .typeError := by
    rw [getOptions_validated env pkg argv f htok hpatch hsing]
    unfold resolveModes
    simp only []
    rw [hub]
    simp [heou, htb, startOrUrl, finalizeUrl, hub]
  refine ⟨hmain, ?_, ?_⟩
  · intro cfg h
    rw [hmain] at h
    simp at h
  · intro e h
    rw [hmain] at h
    simp at h

/-- C10 witness: the concrete bare-flag input yields the TypeError outcome. -/
theorem c10_bare_storybook_url_witness :
    getOptions env0 pkgStart [] { flagsTok with storybookUrl := some "" } =
      .typeError :=
  (c10_bare_storybook_url env0 pkgStart [] { flagsTok with storybookUrl := some "" }
    (by decide) (by decide) rfl (by decide) (by decide) (by decide) (by decide)
    (by decide)).1

/-- C6 counterexample: with a token, NO selector flags, no port flag and
`noStart` false, a manifest whose only script is
`storybook: start-storybook -p 9009` does NOT resolve to start mode —
the build-mode branch is tried first and fails with
`MissingBuildScriptName "build-storybook"`. -/
theorem c6_counterexample :
    getOptions env0 pkgStart [] flagsTok =
      .err (.missingBuildScriptName "build-storybook") := by
  decide

/-- C6 (amended).  With a bare `--script-name` selector added (normalized
to `true`, so the default name `storybook` is looked up), the inference
succeeds: port 9009 is read from the script, the URL is
`http://localhost:9009/iframe.html`; with the `--https
--ssl-cert=./c.pem --ssl-key=./k.pem` variant the resolved https object
is `{cert: "./c.pem", key: "./k.pem", ca: undefined}` and the scheme is
https. -/
theorem c6_start_inference :
    urlOf (getOptions env0 pkgStart [] { flagsTok with scriptName := some "" }) =
      some "http://localhost:9009/iframe.html" ∧
    httpsOf (getOptions env0 pkgStart [] { flagsTok with scriptName := some "" }) =
      some (.bool false) ∧
    urlOf (getOptions env0 pkgHttps [] { flagsTok with scriptName := some "" }) =
      some "https://localhost:9009/iframe.html" ∧
    httpsOf (getOptions env0 pkgHttps [] { flagsTok with scriptName := some "" }) =
      some (.obj (some "./c.pem") (some "./k.pem") none) := by
  refine ⟨?_, ?_, ?_, ?_⟩ <;> decide

lemma finalizeUrl_ok_https (o : Options) (ns : Bool) (h : HVal) (sn cand : StrB)
    (cfg : Resolved) (he : finalizeUrl o ns h sn cand = .ok cfg) :
    cfg.https = h := by
  unfold finalizeUrl at he
  rcases cand with _ | b | s <;> simp at he
  split at he <;> simp at he
  rw [← he]

lemma inferAndCompose_ok_https (env : Env) (o : Options) (ns : Bool) (h0 : HVal)
    (sn script : String) (cfg : Resolved) (h0t : truthyH h0 = true)
    (he : inferAndCompose env o ns h0 sn script = .ok cfg) : cfg.https = h0 := by
  unfold inferAndCompose at he
  simp only [] at he
  rw [h0t] at he
  simp only [if_true] at he
  repeat' split at he
  all_goals try exact finalizeUrl_ok_https _ _ _ _ _ _ he
  all_goals simp at he

lemma startOrUrl_ok_https (env : Env) (pkg : PackageJson) (o : Options) (ns : Bool)
    (cfg : Resolved) (hflag : o.https = true)
    (he : startOrUrl env pkg o ns = .ok cfg) :
    cfg.https = .obj o.cert o.key o.ca := by
  unfold startOrUrl at he
  simp only [] at he
  rw [hflag] at he
  simp only [if_true] at he
  have h0t : truthyH (HVal.obj o.cert o.key o.ca) = true := rfl
  repeat' split at he
  all_goals try exact finalizeUrl_ok_https _ _ _ _ _ _ he
  all_goals try exact inferAndCompose_ok_https _ _ _ _ _ _ _ h0t he
  all_goals simp at he

lemma truthyS_getD (v : Option String) (h : truthyS v = true) :
    (v.getD "" != "") = true := by
  cases v with
  | none => simp [truthyS] at h
  | some s => simpa [truthyS] using h

lemma finalizeUrl_ok_inv (o : Options) (ns : Bool) (h : HVal) (sn : StrB)
    (s : String) (cfg : Resolved)
    (he : finalizeUrl o ns h sn (.str s) = .ok cfg) :
    ∃ pu, urlParse s = some pu ∧ cfg.https = h ∧
      cfg.url = some (urlFormat (appendSuffix pu)) := by
  unfold finalizeUrl at he
  simp only [] at he
  split at he
  · rename_i pu hpu
    simp at he
    exact ⟨pu, hpu, by rw [← he], by rw [← he]⟩
  · simp at he

lemma inferAndCompose_ok_port (env : Env) (o : Options) (ns : Bool) (h0 : HVal)
    (sn script : String) (cfg : Resolved)
    (hport : truthyS o.port = true)
    (he : inferAndCompose env o ns h0 sn script = .ok cfg) :
    ∃ pu, urlParse (composeUrl cfg.https (o.port.getD "")) = some pu ∧
      cfg.url = some (urlFormat (appendSuffix pu)) := by
  have hpt : truthyB (StrB.str (o.port.getD "")) = true := truthyS_getD _ hport
  unfold inferAndCompose at he
  simp only [] at he
  rw [hport] at he
  simp only [eq_self_iff_true, if_true] at he
  split at he
  · simp at he
  · rw [hpt] at he
    simp only [Bool.not_true, Bool.false_eq_true, if_false, tmplStr] at he
    obtain ⟨pu, hpu, hh, hu⟩ := finalizeUrl_ok_inv _ _ _ _ _ _ he
    refine ⟨pu, ?_, hu⟩
    rw [hh]
    exact hpu

lemma startOrUrl_ok_port (env : Env) (pkg : PackageJson) (o : Options) (ns : Bool)
    (cfg : Resolved)
    (hport : truthyS o.port = true) (hurl : truthyB o.storybookUrl = false)
    (he : startOrUrl env pkg o ns = .ok cfg) :
    ∃ pu, urlParse (composeUrl cfg.https (o.port.getD "")) = some pu ∧
      cfg.url = some (urlFormat (appendSuffix pu)) := by
  unfold startOrUrl at he
  simp only [] at he
  rw [hurl] at he
  simp only [Bool.false_eq_true, if_false] at he
  split at he
  · simp at he
  · split at he
    · split at he
      · exact inferAndCompose_ok_port _ _ _ _ _ _ _ hport he
      · simp at he
    · obtain ⟨pu, hpu, hh, hu⟩ := finalizeUrl_ok_inv _ _ _ _ _ _ he
      refine ⟨pu, ?_, hu⟩
      rw [hh]
      exact hpu

/-- C7 (amended).  A caller-supplied `https` flag always wins: any
successful resolution that reaches URL composition carries exactly the
caller's `{cert, key, ca}` object, never script-derived values.  A
caller-supplied port always takes precedence over the script's `-p`
value: every successful resolution with a truthy caller port (and no URL
target) finalizes exactly the URL composed from the caller's port, so the
script's port never enters.  But caller-supplied cert/key/ca WITHOUT the
`https` flag are ignored in favor of script-derived values (see the
counterexample). -/
theorem c7_caller_precedence (env : Env) (pkg : PackageJson) (argv : List String)
    (f : Flags) :
    (∀ cfg, getOptions env pkg argv f = .ok cfg →
      (normalizeFlags env argv f).https = true → cfg.url ≠ none →
      cfg.https = .obj (normalizeFlags env argv f).cert
        (normalizeFlags env argv f).key (normalizeFlags env argv f).ca) ∧
    (∀ cfg, getOptions env pkg argv f = .ok cfg →
      truthyS (normalizeFlags env argv f).port = true →
      truthyB (normalizeFlags env argv f).storybookUrl = false →
      ∃ pu, urlParse (composeUrl cfg.https
          ((normalizeFlags env argv f).port.getD "")) = some pu ∧
        cfg.url = some (urlFormat (appendSuffix pu))) := by
  constructor
  · intro cfg hok hflag hurl
    unfold getOptions at hok
    simp only [] at hok
    split at hok
    · simp at hok
    · split at hok
      · simp at hok
      · split at hok
        · simp at hok
        · split at hok
          · simp at hok
          · unfold resolveModes at hok
            simp only [] at hok
            split at hok
            · simp at hok
            · split at hok
              · simp at hok
              · split at hok
                · -- build mode: url is none, contradicting hurl
                  unfold buildMode at hok
                  simp only [] at hok
                  split at hok
                  · simp at hok
                    rw [← hok] at hurl
                    simp [mkStatic] at hurl
                  · split at hok
                    · simp at hok
                      rw [← hok] at hurl
                      simp [mkBuild] at hurl
                    · simp at hok
                · exact startOrUrl_ok_https _ _ _ _ _ hflag hok
  · intro cfg hok hport hurl
    unfold getOptions at hok
    simp only [] at hok
    split at hok
    · simp at hok
    · split at hok
      · simp at hok
      · split at hok
        · simp at hok
        · split at hok
          · simp at hok
          · unfold resolveModes at hok
            simp only [] at hok
            split at hok
            · simp at hok
            · split at hok
              · simp at hok
              · split at hok
                · rename_i hcond
                  rw [hport] at hcond
                  simp at hcond
                · exact startOrUrl_ok_port _ _ _ _ _ hport hurl hok

/-- The manifest whose start script carries its own `--ssl-cert`. -/
def pkgScriptCert : PackageJson :=
  ⟨some [("storybook", "start-storybook -p 9009 --https --ssl-cert=./script.pem")]⟩

/-- Caller flags: bare script-name selector plus a caller cert WITHOUT the
caller https flag. -/
def flagsMineCert : Flags :=
  { flagsTok with scriptName := some "", storybookCert := some "./mine.pem" }

/-- Caller flags: bare script-name selector plus the caller https flag and
a caller cert. -/
def flagsCallerHttps : Flags :=
  { flagsTok with
    scriptName := some ""
    storybookHttps := true
    storybookCert := some "./mine.pem" }

/-- Caller flags: bare script-name selector plus a caller port that
disagrees with the script's `-p 9009`. -/
def flagsPort7007 : Flags :=
  { flagsTok with
    scriptName := some ""
    storybookPort := some "7007" }

/-- C7 witness: with the caller's `https` flag set, the resolved https
object carries the caller's cert even though the script supplies its own;
and a caller port `7007` overrides the script's `-p 9009` in the resolved
url. -/
theorem c7_caller_precedence_witness :
    httpsOf (getOptions env0 pkgScriptCert [] flagsCallerHttps) =
      some (.obj (some "./mine.pem") none none) ∧
    urlOf (getOptions env0 pkgStart [] flagsPort7007) =
      some "http://localhost:7007/iframe.html" := by
  constructor
  · have hurl2 : urlOf (getOptions env0 pkgScriptCert [] flagsCallerHttps) =
        some "https://localhost:9009/iframe.html" := by decide
    rcases hr : getOptions env0 pkgScriptCert [] flagsCallerHttps with cfg | e | _ | s
    · rw [hr] at hurl2
      simp only [urlOf] at hurl2
      have hh := (c7_caller_precedence env0 pkgScriptCert [] flagsCallerHttps).1 cfg hr
        (by decide) (by rw [hurl2]; simp)
      simp only [httpsOf, hh]
      decide
    · rw [hr] at hurl2; simp [urlOf] at hurl2
    · rw [hr] at hurl2; simp [urlOf] at hurl2
    · rw [hr] at hurl2; simp [urlOf] at hurl2
  · have hhf : httpsOf (getOptions env0 pkgStart [] flagsPort7007) =
        some (.bool false) := by decide
    rcases hr : getOptions env0 pkgStart [] flagsPort7007 with cfg | e | _ | s
    · rw [hr] at hhf
      simp only [httpsOf, Option.some.injEq] at hhf
      obtain ⟨pu, hpu, hu⟩ := (c7_caller_precedence env0 pkgStart [] flagsPort7007).2
        cfg hr (by decide) (by decide)
      rw [hhf] at hpu
      have hc : composeUrl (HVal.bool false)
          ((normalizeFlags env0 [] flagsPort7007).port.getD "") =
          "http://localhost:7007" := by decide
      rw [hc] at hpu
      have hup : urlParse "http://localhost:7007" =
          some ⟨"http:", "localhost:7007", "/"⟩ := by decide
      rw [hup] at hpu
      injection hpu with hpu2
      subst hpu2
      simp only [urlOf]
      rw [hu]
      decide
    · rw [hr] at hhf; simp [httpsOf] at hhf
    · rw [hr] at hhf; simp [httpsOf] at hhf
    · rw [hr] at hhf; simp [httpsOf] at hhf

/-- C7 counterexample: the caller supplies `--storybook-cert ./mine.pem`
but not `--storybook-https`; the script string's `--ssl-cert=./script.pem`
replaces the caller's value — refuting "a caller-supplied cert/key/ca is
never replaced by a script-derived one". -/
theorem c7_counterexample :
    Flags.storybookCert flagsMineCert = some "./mine.pem" ∧
    httpsOf (getOptions env0 pkgScriptCert [] flagsMineCert) =
      some (.obj (some "./script.pem") none none) := by
  constructor
  · decide
  · decide

/-- The manifest whose start script carries a `~`-prefixed `--ssl-cert`. -/
def pkgTildeCert : PackageJson :=
  ⟨some [("storybook", "start-storybook -p 9009 --https --ssl-cert=~/c.pem")]⟩

/-- Caller flags carrying a `~`-prefixed cert together with the https flag. -/
def flagsTildeCallerCert : Flags :=
  { flagsTok with
    scriptName := some ""
    storybookHttps := true
    storybookCert := some "~/c.pem" }

/-- C8 (amended).  `resolveHomeDir` replaces a leading `~/` by the HOME
value (and passes non-`~` paths through unchanged), and the expansion is
applied to TLS paths inferred from the manifest script string — but NOT
to caller-flag-supplied paths (see the counterexample). -/
theorem c8_home_dir_expansion (env : Env) :
    (∀ s, jsStartsWith s "~/" = true →
      resolveHomeDir env s = env.home ++ jsDrop s 1) ∧
    (∀ s, jsStartsWith s "~" = false → resolveHomeDir env s = s) ∧
    httpsOf (getOptions env0 pkgTildeCert [] { flagsTok with scriptName := some "" }) =
      some (.obj (some "/root/c.pem") none none) := by
  refine ⟨?_, ?_, by decide⟩
  · intro s hs
    obtain ⟨t, ht⟩ : ∃ t, s.data = '~' :: '/' :: t := by
      unfold jsStartsWith at hs
      rw [ List.isPrefixOf_iff_prefix] at hs
      obtain ⟨u, hu⟩ := hs
      exact ⟨u, hu.symm⟩
    rcases s with ⟨data⟩
    simp only [] at ht
    subst ht
    have hne : ((⟨'~' :: '/' :: t⟩ : String) != "") = true := by
      simp [bne, String.ext_iff]
    have hts : jsStartsWith (⟨'~' :: '/' :: t⟩ : String) "~" = true := by
      simp [jsStartsWith, List.isPrefixOf]
    unfold resolveHomeDir
    rw [hne, hts]
    simp only [Bool.and_self, if_true]
    unfold pathJoin jsDrop
    simp only [List.drop_succ_cons, List.drop_zero]
    have hps : jsStartsWith (⟨'/' :: t⟩ : String) "/" = true := by
      simp [jsStartsWith, List.isPrefixOf]
    rw [hps]
    simp
  · intro s hs
    unfold resolveHomeDir
    rw [hs]
    simp

/-- C8 witness: a `~/`-path expands against HOME and a relative path is
unchanged. -/
theorem c8_home_dir_expansion_witness :
    resolveHomeDir env0 "~/k.pem" = "/root" ++ "/k.pem" ∧
    resolveHomeDir env0 "./k.pem" = "./k.pem" := by
  constructor
  · exact (c8_home_dir_expansion env0).1 "~/k.pem" (by decide)
  · exact (c8_home_dir_expansion env0).2.1 "./k.pem" (by decide)

/-- C8 counterexample: a caller-flag-supplied `~`-prefixed cert reaches
the resolved configuration unexpanded — refuting "applies to TLS
cert/key/ca paths regardless of whether they were supplied by caller
flags or inferred from the manifest script string". -/
theorem c8_counterexample :
    jsStartsWith "~/c.pem" "~" = true ∧
    httpsOf (getOptions env0 pkgStart [] flagsTildeCallerCert) =
      some (.obj (some "~/c.pem") none none) := by
  constructor
  · decide
  · decide

lemma isSuffixL_append (l suf : List Char) : isSuffixL suf (l ++ suf) = true := by
  unfold isSuffixL
  rw [List.length_append, Nat.add_sub_cancel, List.drop_left]
  simp

lemma jsEndsWith_append (p q : String) : jsEndsWith (p ++ q) q = true := by
  unfold jsEndsWith
  rw [String.data_append]
  exact isSuffixL_append _ _

lemma appendSuffix_endsWith (pu : ParsedUrl) :
    jsEndsWith (appendSuffix pu).pathname "iframe.html" = true := by
  unfold appendSuffix
  split
  · assumption
  · split <;> simp [jsEndsWith_append]

lemma appendSuffix_of_endsWith (pu : ParsedUrl)
    (h : jsEndsWith pu.pathname "iframe.html" = true) : appendSuffix pu = pu := by
  unfold appendSuffix
  simp [h]

lemma appendSuffix_idem (pu : ParsedUrl) :
    appendSuffix (appendSuffix pu) = appendSuffix pu :=
  appendSuffix_of_endsWith _ (appendSuffix_endsWith pu)

lemma takeWhile_append_cons (p : Char → Bool) (l : List Char) (c : Char)
    (t : List Char) (hl : ∀ x ∈ l, p x = true) (hc : p c = false) :
    ((l ++ c :: t).takeWhile p = l) ∧ ((l ++ c :: t).dropWhile p = c :: t) := by
  induction l with
  | nil => simp [List.takeWhile_cons, List.dropWhile_cons, hc]
  | cons a l ih =>
    have ha : p a = true := hl a (List.mem_cons_self _ _)
    have ih2 := ih (fun x hx => hl x (List.mem_cons_of_mem _ hx))
    simp [List.takeWhile_cons, List.dropWhile_cons, ha, ih2.1, ih2.2]

lemma dropWhile_head_false (p : Char → Bool) (l : List Char) (c : Char)
    (t : List Char) (h : l.dropWhile p = c :: t) : p c = false := by
  induction l with
  | nil => simp at h
  | cons a l ih =>
    rw [List.dropWhile_cons] at h
    split at h
    · exact ih h
    · rename_i hpa
      injection h with h1 _
      subst h1
      simpa using hpa

lemma splitProto_append (proto rest : List Char) (h : ∀ c ∈ proto, c ≠ ':') :
    splitProto (proto ++ ':' :: '/' :: '/' :: rest) = some (proto, rest) := by
  induction proto with
  | nil => simp [splitProto]
  | cons a l ih =>
    have ha : a ≠ ':' := h a (List.mem_cons_self _ _)
    rw [List.cons_append]
    unfold splitProto
    rw [if_neg (by simp [ha])]
    rw [ih (fun c hc => h c (List.mem_cons_of_mem _ hc))]
    rfl

lemma hostCharOk_ne_slash (c : Char) (h : hostCharOk c = true) : (c != '/') = true := by
  by_contra hc
  simp at hc
  subst hc
  simp [hostCharOk] at h

lemma urlParse_wf (s : String) (pu : ParsedUrl) (h : urlParse s = some pu) :
    wfPU pu = true := by
  unfold urlParse at h
  split at h
  · simp at h
  · rename_i proto rest heq
    simp only [] at h
    split at h
    · rename_i hcond
      obtain ⟨hproto, hne, hhost, hpath⟩ := hcond
      injection h with h2
      subst h2
      unfold wfPU
      simp only [Bool.and_eq_true]
      refine ⟨⟨⟨⟨⟨?_, ?_⟩, ?_⟩, ?_⟩, ?_⟩, ?_⟩
      · rcases hproto with hp | hp <;> subst hp <;> decide
      · simpa using hne
      · simpa using hhost
      · split
        · decide
        · rename_i hnil
          simpa using hnil
      · split
        · decide
        · rename_i hnil
          rcases hp : rest.dropWhile (fun c => c != '/') with _ | ⟨c, t⟩
          · exact absurd hp hnil
          · have := dropWhile_head_false _ _ _ _ hp
            simp at this
            subst this
            simp [hp]
      · split
        · decide
        · simpa using hpath
    · simp at h

lemma urlParse_format (pu : ParsedUrl) (h : wfPU pu = true) :
    urlParse (urlFormat pu) = some pu := by
  rcases pu with ⟨P, H, PA⟩
  unfold wfPU at h
  simp only [Bool.and_eq_true] at h
  obtain ⟨⟨⟨⟨⟨hproto, hhostne⟩, hhostok⟩, hpathne⟩, hhead⟩, hpathok⟩ := h
  obtain ⟨pt, hpt⟩ : ∃ pt, PA.data = '/' :: pt := by
    rcases hp : PA.data with _ | ⟨c, t⟩
    · rw [hp] at hpathne; simp at hpathne
    · rw [hp] at hhead
      simp at hhead
      subst hhead
      exact ⟨t, rfl⟩
  have hhost2 : ∀ x ∈ H.data, (x != '/') = true := by
    intro x hx
    rw [List.all_eq_true] at hhostok
    exact hostCharOk_ne_slash x (hhostok x hx)
  have hallpath : ('/' :: pt).all pathCharOk = true := by
    rw [← hpt]
    exact hpathok
  have hPA : (⟨'/' :: pt⟩ : String) = PA := by rw [← hpt]
  rcases Bool.or_eq_true_iff.mp hproto with hp | hp
  · have hpe : P = "http:" := by
      have := eq_of_beq hp
      exact this
    subst hpe
    have hdata : (urlFormat ⟨"http:", H, PA⟩).data =
        "http".data ++ ':' :: '/' :: '/' :: (H.data ++ PA.data) := by
      unfold urlFormat
      simp only []
      rw [String.data_append, String.data_append, String.data_append]
      have h1 : ("http:" : String).data = ['h', 't', 't', 'p', ':'] := rfl
      have h2 : ("//" : String).data = ['/', '/'] := rfl
      rw [h1, h2]
      simp
    unfold urlParse
    rw [hdata]
    rw [splitProto_append "http".data _ (by decide)]
    simp only []
    rw [hpt]
    obtain ⟨htw, hdw⟩ :=
      takeWhile_append_cons (fun c => c != '/') H.data '/' pt hhost2 (by decide)
    rw [htw, hdw]
    rw [if_pos ⟨Or.inl trivial, by simpa using hhostne, hhostok, hallpath⟩]
    rw [if_neg (by simp)]
    rw [hPA]
    rfl
  · have hpe : P = "https:" := by
      have := eq_of_beq hp
      exact this
    subst hpe
    have hdata : (urlFormat ⟨"https:", H, PA⟩).data =
        "https".data ++ ':' :: '/' :: '/' :: (H.data ++ PA.data) := by
      unfold urlFormat
      simp only []
      rw [String.data_append, String.data_append, String.data_append]
      have h1 : ("https:" : String).data = ['h', 't', 't', 'p', 's', ':'] := rfl
      have h2 : ("//" : String).data = ['/', '/'] := rfl
      rw [h1, h2]
      simp
    unfold urlParse
    rw [hdata]
    rw [splitProto_append "https".data _ (by decide)]
    simp only []
    rw [hpt]
    obtain ⟨htw, hdw⟩ :=
      takeWhile_append_cons (fun c => c != '/') H.data '/' pt hhost2 (by decide)
    rw [htw, hdw]
    rw [if_pos ⟨Or.inr trivial, by simpa using hhostne, hhostok, hallpath⟩]
    rw [if_neg (by simp)]
    rw [hPA]
    rfl

lemma wfPU_appendSuffix (pu : ParsedUrl) (h : wfPU pu = true) :
    wfPU (appendSuffix pu) = true := by
  rcases pu with ⟨P, H, PA⟩
  unfold wfPU at h
  simp only [Bool.and_eq_true] at h
  obtain ⟨⟨⟨⟨⟨hproto, hhostne⟩, hhostok⟩, hpathne⟩, hhead⟩, hpathok⟩ := h
  obtain ⟨pt, hpt⟩ : ∃ pt, PA.data = '/' :: pt := by
    rcases hp : PA.data with _ | ⟨c, t⟩
    · rw [hp] at hpathne; simp at hpathne
    · rw [hp] at hhead
      simp at hhead
      subst hhead
      exact ⟨t, rfl⟩
  have hifr : ("iframe.html" : String).data.all pathCharOk = true := by decide
  have hsl : ("/" : String).data.all pathCharOk = true := by decide
  unfold appendSuffix
  split
  · unfold wfPU
    simp only [Bool.and_eq_true]
    exact ⟨⟨⟨⟨⟨hproto, hhostne⟩, hhostok⟩, hpathne⟩, hhead⟩, hpathok⟩
  · split
    · unfold wfPU
      simp only [Bool.and_eq_true]
      refine ⟨⟨⟨⟨⟨hproto, hhostne⟩, hhostok⟩, ?_⟩, ?_⟩, ?_⟩
      · simp [String.data_append, hpt]
      · simp [String.data_append, hpt]
      · simp only [String.data_append, List.all_append, Bool.and_eq_true]
        exact ⟨hpathok, hifr⟩
    · unfold wfPU
      simp only [Bool.and_eq_true]
      refine ⟨⟨⟨⟨⟨hproto, hhostne⟩, hhostok⟩, ?_⟩, ?_⟩, ?_⟩
      · simp [String.data_append, hpt]
      · simp [String.data_append, hpt]
      · simp only [String.data_append, List.all_append, Bool.and_eq_true]
        exact ⟨⟨hpathok, hsl⟩, hifr⟩

lemma wfPU_format_ne_empty (pu : ParsedUrl) (h : wfPU pu = true) :
    urlFormat pu ≠ "" := by
  unfold wfPU at h
  simp only [Bool.and_eq_true] at h
  obtain ⟨⟨⟨⟨⟨hproto, _⟩, _⟩, _⟩, _⟩, _⟩ := h
  intro he
  unfold urlFormat at he
  rcases Bool.or_eq_true_iff.mp hproto with hp | hp <;>
    rw [eq_of_beq hp] at he <;>
    have := congrArg String.data he <;>
    rw [String.data_append, String.data_append, String.data_append] at this <;>
    simp at this

lemma finalizeUrl_ok_url (o : Options) (ns : Bool) (h : HVal) (sn cand : StrB)
    (cfg : Resolved) (he : finalizeUrl o ns h sn cand = .ok cfg) :
    cfg.url = none ∨
    ∃ s pu, cand = .str s ∧ urlParse s = some pu ∧
      cfg.url = some (urlFormat (appendSuffix pu)) := by
  unfold finalizeUrl at he
  rcases cand with _ | b | s <;> simp at he
  split at he
  · rename_i pu hpu
    simp at he
    exact Or.inr ⟨s, pu, rfl, hpu, by rw [← he]⟩
  · simp at he

lemma finalizeUrl_ok_url2 (o : Options) (ns : Bool) (h : HVal) (sn cand : StrB)
    (cfg : Resolved) (he : finalizeUrl o ns h sn cand = .ok cfg) :
    cfg.url = none ∨
    ∃ s pu, urlParse s = some pu ∧ cfg.url = some (urlFormat (appendSuffix pu)) := by
  rcases finalizeUrl_ok_url _ _ _ _ _ _ he with hn | ⟨s, pu, _, hp, hu⟩
  · exact Or.inl hn
  · exact Or.inr ⟨s, pu, hp, hu⟩

lemma inferAndCompose_ok_url (env : Env) (o : Options) (ns : Bool) (h0 : HVal)
    (sn script : String) (cfg : Resolved)
    (he : inferAndCompose env o ns h0 sn script = .ok cfg) :
    cfg.url = none ∨
    ∃ s pu, urlParse s = some pu ∧ cfg.url = some (urlFormat (appendSuffix pu)) := by
  unfold inferAndCompose at he
  simp only [] at he
  repeat' split at he
  all_goals try exact finalizeUrl_ok_url2 _ _ _ _ _ _ he
  all_goals simp at he

lemma startOrUrl_ok_url (env : Env) (pkg : PackageJson) (o : Options) (ns : Bool)
    (cfg : Resolved) (he : startOrUrl env pkg o ns = .ok cfg) :
    cfg.url = none ∨
    ∃ s pu, urlParse s = some pu ∧ cfg.url = some (urlFormat (appendSuffix pu)) := by
  unfold startOrUrl at he
  simp only [] at he
  repeat' split at he
  all_goals try exact finalizeUrl_ok_url2 _ _ _ _ _ _ he
  all_goals try exact inferAndCompose_ok_url _ _ _ _ _ _ _ he
  all_goals simp at he

lemma getOptions_ok_url (env : Env) (pkg : PackageJson) (argv : List String)
    (f : Flags) (cfg : Resolved) (u : String)
    (hok : getOptions env pkg argv f = .ok cfg) (hu : cfg.url = some u) :
    ∃ q, wfPU q = true ∧ appendSuffix q = q ∧ u = urlFormat q := by
  unfold getOptions at hok
  simp only [] at hok
  split at hok
  · simp at hok
  · split at hok
    · simp at hok
    · split at hok
      · simp at hok
      · split at hok
        · simp at hok
        · unfold resolveModes at hok
          simp only [] at hok
          split at hok
          · simp at hok
          · split at hok
            · simp at hok
            · split at hok
              · unfold buildMode at hok
                simp only [] at hok
                split at hok
                · simp at hok
                  rw [← hok] at hu
                  simp [mkStatic] at hu
                · split at hok
                  · simp at hok
                    rw [← hok] at hu
                    simp [mkBuild] at hu
                  · simp at hok
              · rcases startOrUrl_ok_url _ _ _ _ _ hok with hn | ⟨s, pu, hp, hurl⟩
                · rw [hn] at hu; simp at hu
                · rw [hurl] at hu
                  injection hu with hu2
                  refine ⟨appendSuffix pu, ?_, appendSuffix_idem pu, hu2.symm⟩
                  exact wfPU_appendSuffix pu (urlParse_wf s pu hp)

lemma urlMode_eval (env : Env) (pkg : PackageJson) (argv : List String) (f : Flags)
    (u : String)
    (htok : truthyS (normalizeFlags env argv f).projectToken = true)
    (hpatch : patchOk f (normalizeFlags env argv f) = true)
    (hbsn : truthyS (normalizeFlags env argv f).buildScriptName = false)
    (hsn : truthyB (normalizeFlags env argv f).scriptName = false)
    (hexec : truthyS (normalizeFlags env argv f).exec = false)
    (hbdir : truthyS (normalizeFlags env argv f).storybookBuildDir = false)
    (heou : truthyB (normalizeFlags env argv f).exitOnceUploaded = false)
    (hurl : f.storybookUrl = some u) (hune : u ≠ "") :
    getOptions env pkg argv f =
      finalizeUrl (normalizeFlags env argv f) true
        (if (normalizeFlags env argv f).https = true then
          HVal.obj (normalizeFlags env argv f).cert (normalizeFlags env argv f).key
            (normalizeFlags env argv f).ca
        else HVal.bool false)
        (normalizeFlags env argv f).scriptName (.str u) := by
  have hub : (normalizeFlags env argv f).storybookUrl = .str u := by
    show normET f.storybookUrl = .str u
    rw [hurl]
    unfold normET
    simp [hune]
  have htu : truthyB (StrB.str u) = true := by simp [truthyB, hune]
  have hsing : (foundSingularLabels (normalizeFlags env argv f)).length ≤ 1 := by
    unfold foundSingularLabels
    rw [hub, hbsn, hsn, hexec, hbdir]
    simp [htu]
  rw [getOptions_validated env pkg argv f htok hpatch hsing]
  unfold resolveModes
  simp only []
  rw [hub]
  simp [heou, htu, startOrUrl, hub]

/-- C9.  URL finalization behaves as specified on the pathname (leave
alone when it already ends in `iframe.html`, else ensure `/` and append),
and is idempotent through the pipeline: any successful resolution's `url`,
fed back in as the `storybookUrl` flag (with the other selectors clear and
validation passing), resolves to the same `url`; in particular the two
concrete `localhost:6006` examples hold, with no duplicated suffix. -/
theorem c9_url_idempotent :
    (∀ pu : ParsedUrl,
      (jsEndsWith pu.pathname "iframe.html" = true → appendSuffix pu = pu) ∧
      (jsEndsWith pu.pathname "iframe.html" = false →
        jsEndsWith pu.pathname "/" = true →
        (appendSuffix pu).pathname = pu.pathname ++ "iframe.html") ∧
      (jsEndsWith pu.pathname "iframe.html" = false →
        jsEndsWith pu.pathname "/" = false →
        (appendSuffix pu).pathname = pu.pathname ++ "/" ++ "iframe.html")) ∧
    (∀ env pkg argv f cfg u env2 pkg2 argv2 f2,
      getOptions env pkg argv f = .ok cfg → cfg.url = some u →
      Flags.storybookUrl f2 = some u →
      truthyS (normalizeFlags env2 argv2 f2).projectToken = true →
      patchOk f2 (normalizeFlags env2 argv2 f2) = true →
      truthyS (normalizeFlags env2 argv2 f2).buildScriptName = false →
      truthyB (normalizeFlags env2 argv2 f2).scriptName = false →
      truthyS (normalizeFlags env2 argv2 f2).exec = false →
      truthyS (normalizeFlags env2 argv2 f2).storybookBuildDir = false →
      truthyB (normalizeFlags env2 argv2 f2).exitOnceUploaded = false →
      urlOf (getOptions env2 pkg2 argv2 f2) = some u) ∧
    urlOf (getOptions env0 pkgBuild []
      { flagsTok with storybookUrl := some "http://localhost:6006" }) =
      some "http://localhost:6006/iframe.html" ∧
    urlOf (getOptions env0 pkgBuild []
      { flagsTok with storybookUrl := some "http://localhost:6006/iframe.html" }) =
      some "http://localhost:6006/iframe.html" := by
  refine ⟨?_, ?_, by decide, by decide⟩
  · intro pu
    refine ⟨appendSuffix_of_endsWith pu, ?_, ?_⟩
    · intro h1 h2
      unfold appendSuffix
      simp [h1, h2]
    · intro h1 h2
      unfold appendSuffix
      simp [h1, h2]
  · intro env pkg argv f cfg u env2 pkg2 argv2 f2 hok hu hurl2 htok2 hpatch2
      hbsn2 hsn2 hexec2 hbdir2 heou2
    obtain ⟨q, hwf, hidem, hq⟩ := getOptions_ok_url _ _ _ _ _ _ hok hu
    subst hq
    have hune := wfPU_format_ne_empty q hwf
    rw [urlMode_eval env2 pkg2 argv2 f2 (urlFormat q) htok2 hpatch2 hbsn2 hsn2
      hexec2 hbdir2 heou2 hurl2 hune]
    unfold finalizeUrl
    simp only []
    rw [urlParse_format q hwf]
    simp only [urlOf]
    rw [hidem]

/-- C9 witness: resolving `storybookUrl = "http://localhost:6006"` and
feeding the resulting url back in yields the same url. -/
theorem c9_url_idempotent_witness :
    urlOf (getOptions env0 pkgBuild []
      { flagsTok with storybookUrl := some "http://localhost:6006/iframe.html" }) =
      some "http://localhost:6006/iframe.html" := by
  have hshape : isOkB (getOptions env0 pkgBuild []
      { flagsTok with storybookUrl := some "http://localhost:6006" }) = true := by
    decide
  have hu1 : urlOf (getOptions env0 pkgBuild []
      { flagsTok with storybookUrl := some "http://localhost:6006" }) =
      some "http://localhost:6006/iframe.html" := by decide
  rcases hr : getOptions env0 pkgBuild []
      { flagsTok with storybookUrl := some "http://localhost:6006" }
    with cfg | e | _ | s
  · rw [hr] at hu1
    simp only [urlOf] at hu1
    exact c9_url_idempotent.2.1 env0 pkgBuild []
      { flagsTok with storybookUrl := some "http://localhost:6006" } cfg
      "http://localhost:6006/iframe.html" env0 pkgBuild []
      { flagsTok with storybookUrl := some "http://localhost:6006/iframe.html" }
      hr hu1 rfl (by decide) (by decide) (by decide) (by decide) (by decide)
      (by decide) (by decide)
  · rw [hr] at hshape; simp [isOkB] at hshape
  · rw [hr] at hshape; simp [isOkB] at hshape
  · rw [hr] at hshape; simp [isOkB] at hshape
